import Mathlib

/-!
Verification of the coda-embeddings pack core (src/pack.ts).

The embedding models:
* JSON values (`Json`), with rationals idealizing JavaScript's finite numbers;
* `JSON.stringify` (`printJsonL`) and `JSON.parse` (`parseJson`), the
  serialization format used by `GenerateEmbedding`/`FormatEmbedding`;
* JavaScript member access, truthiness and string conversion as used by
  `generateEmbedding` (lines 92-124 of src/pack.ts);
* the three consumer entry points `FormatEmbedding`, `GenerateEmbedding`
  (via `generateEmbedding` and `stringifyGenRecord`) and `CosineSimilarity`
  (`cosineSimilarity`, over real numbers idealizing floats).
-/

namespace CodaEmbeddings

/-- JSON values, the model of parsed JavaScript data.  Numbers are rationals
(the idealization of finite JS numbers). -/
inductive Json where
  | null : Json
  | bool (b : Bool) : Json
  | num (q : ℚ) : Json
  | str (s : String) : Json
  | arr (elems : List Json) : Json
  | obj (members : List (String × Json)) : Json

/-! ## Decimal digits -/

/-- The decimal digit character for `n < 10`. -/
def digitChar (n : ℕ) : Char := Char.ofNat (48 + n)

/-- Decimal digits helper; the fuel (first argument) bounds the number of
divisions by 10 and any fuel of at least `n` is enough. -/
def natToDigitsAux : ℕ → ℕ → List Char
  | 0, n => [digitChar n]
  | f + 1, n =>
    if n < 10 then [digitChar n]
    else natToDigitsAux f (n / 10) ++ [digitChar (n % 10)]

/-- Decimal digits of a natural number, most significant first. -/
def natToDigits (n : ℕ) : List Char := natToDigitsAux n n

/-- The least `k ≤ d` with `d ∣ 10 ^ k` (when one exists; `d` otherwise).
For a 10-smooth denominator this is the number of decimal fraction digits. -/
def decExp (d : ℕ) : ℕ :=
  match (List.range (d + 1)).find? (fun k => decide (d ∣ 10 ^ k)) with
  | some k => k
  | none => d

/-- Pad a digit list with leading zeros to length at least `k + 1`. -/
def padDigits (k : ℕ) (ds : List Char) : List Char :=
  List.replicate (k + 1 - ds.length) '0' ++ ds

/-- The decimal notation a JavaScript runtime prints for the number `q`
(sign, integer digits, and a fraction part when the denominator requires
one).  Exponential notation for very large or small magnitudes is not
modelled; the parser accepts both notations. -/
def printNumL (q : ℚ) : List Char :=
  let k := decExp q.den
  let m := q.num.natAbs * (10 ^ k / q.den)
  let ds := padDigits k (natToDigits m)
  (if q < 0 then ['-'] else [])
    ++ ds.take (ds.length - k)
    ++ (if k = 0 then [] else '.' :: ds.drop (ds.length - k))

/-! ## String escaping (JSON.stringify) -/

/-- Lowercase hexadecimal digit character for `n < 16`. -/
def hexDigitChar (n : ℕ) : Char := if n < 10 then digitChar n else Char.ofNat (87 + n)

/-- How `JSON.stringify` emits one character of a string: quote and
backslash get a two-character escape, control characters get their named
escape or a `\u00XX` escape, and everything else is emitted verbatim. -/
def escChar (c : Char) : List Char :=
  if c = '"' then ['\\', '"']
  else if c = '\\' then ['\\', '\\']
  else if c = Char.ofNat 8 then ['\\', 'b']
  else if c = Char.ofNat 9 then ['\\', 't']
  else if c = Char.ofNat 10 then ['\\', 'n']
  else if c = Char.ofNat 12 then ['\\', 'f']
  else if c = Char.ofNat 13 then ['\\', 'r']
  else if c.toNat < 32 then
    '\\' :: 'u' :: '0' :: '0' :: hexDigitChar (c.toNat / 16) :: [hexDigitChar (c.toNat % 16)]
  else [c]

/-- Escape every character of a string body. -/
def escList : List Char → List Char
  | [] => []
  | c :: cs => escChar c ++ escList cs

/-- A JSON string literal: quote, escaped body, quote. -/
def quoteStr (s : String) : List Char := '"' :: (escList s.data ++ ['"'])

/-! ## JSON.stringify -/

mutual

/-- `JSON.stringify` on a JSON value (no added whitespace). -/
def printJsonL : Json → List Char
  | .null => "null".data
  | .bool true => "true".data
  | .bool false => "false".data
  | .num q => printNumL q
  | .str s => quoteStr s
  | .arr xs => '[' :: (printElemsL xs ++ [']'])
  | .obj kvs => '\x7b' :: (printMembersL kvs ++ ['\x7d'])

/-- Comma-separated rendering of array elements. -/
def printElemsL : List Json → List Char
  | [] => []
  | [x] => printJsonL x
  | x :: xs => printJsonL x ++ ',' :: printElemsL xs

/-- Comma-separated rendering of object members. -/
def printMembersL : List (String × Json) → List Char
  | [] => []
  | [(k, v)] => quoteStr k ++ ':' :: printJsonL v
  | (k, v) :: kvs => quoteStr k ++ ':' :: printJsonL v ++ ',' :: printMembersL kvs

end

/-! ## JSON.parse -/

/-- JSON whitespace: space, tab, line feed, carriage return. -/
def isJsonWs (c : Char) : Bool :=
  c = ' ' || c = Char.ofNat 9 || c = Char.ofNat 10 || c = Char.ofNat 13

/-- Drop leading JSON whitespace. -/
def skipWs (cs : List Char) : List Char := cs.dropWhile isJsonWs

/-- Value of one hexadecimal digit character. -/
def hexVal (c : Char) : Option ℕ :=
  if '0' ≤ c ∧ c ≤ '9' then some (c.toNat - 48)
  else if 'a' ≤ c ∧ c ≤ 'f' then some (c.toNat - 87)
  else if 'A' ≤ c ∧ c ≤ 'F' then some (c.toNat - 55)
  else none

/-- Parse the body of a JSON string literal after the opening quote,
returning the decoded characters and the remaining input.  Raw control
characters are rejected, escapes are decoded; a `\uXXXX` escape must
denote a Unicode scalar value (surrogate halves are rejected, and
surrogate-pair recombination is not modelled). -/
def parseStrBody : List Char → Option (List Char × List Char)
  | [] => none
  | c :: cs =>
    if c = '"' then some ([], cs)
    else if c = '\\' then
      match cs with
      | [] => none
      | e :: cs2 =>
        if e = '"' ∨ e = '\\' ∨ e = '/' then
          (parseStrBody cs2).map (fun p => (e :: p.1, p.2))
        else if e = 'b' then (parseStrBody cs2).map (fun p => (Char.ofNat 8 :: p.1, p.2))
        else if e = 't' then (parseStrBody cs2).map (fun p => (Char.ofNat 9 :: p.1, p.2))
        else if e = 'n' then (parseStrBody cs2).map (fun p => (Char.ofNat 10 :: p.1, p.2))
        else if e = 'f' then (parseStrBody cs2).map (fun p => (Char.ofNat 12 :: p.1, p.2))
        else if e = 'r' then (parseStrBody cs2).map (fun p => (Char.ofNat 13 :: p.1, p.2))
        else if e = 'u' then
          match cs2 with
          | h1 :: h2 :: h3 :: h4 :: cs3 =>
            match hexVal h1, hexVal h2, hexVal h3, hexVal h4 with
            | some a, some b, some c2, some d =>
              let n := 4096 * a + 256 * b + 16 * c2 + d
              if n < 55296 then (parseStrBody cs3).map (fun p => (Char.ofNat n :: p.1, p.2))
              else if 57343 < n then (parseStrBody cs3).map (fun p => (Char.ofNat n :: p.1, p.2))
              else none
            | _, _, _, _ => none
          | _ => none
        else none
    else if c.toNat < 32 then none
    else (parseStrBody cs).map (fun p => (c :: p.1, p.2))

/-- Numeric value of a decimal digit list, most significant first. -/
def digitsVal (ds : List Char) : ℕ := ds.foldl (fun a c => 10 * a + (c.toNat - 48)) 0

/-- Split off the longest prefix of decimal digits. -/
def takeDigits : List Char → List Char × List Char
  | [] => ([], [])
  | c :: cs =>
    if c.isDigit then
      let p := takeDigits cs
      (c :: p.1, p.2)
    else ([], c :: cs)

/-- Does the input begin with a decimal digit? -/
def headDigit : List Char → Bool
  | [] => false
  | c :: _ => c.isDigit

/-- True when the input cannot extend a number token (neither a digit nor
a dot nor an exponent marker follows). -/
def numStop : List Char → Bool
  | [] => true
  | c :: _ => !(c.isDigit || c = '.' || c = 'e' || c = 'E')

/-- Parse an optional fraction part `.digits`. -/
def parseFrac : List Char → Option (List Char × List Char)
  | '.' :: t =>
    let p := takeDigits t
    if p.1 = [] then none else some p
  | cs => some ([], cs)

/-- Parse an optional exponent part `e[+-]digits`; returns the exponent
sign, its digits, and the remaining input. -/
def parseExp : List Char → Option (Bool × List Char × List Char)
  | [] => some (false, [], [])
  | c :: t =>
    if c = 'e' ∨ c = 'E' then
      let sp := match t with
        | '+' :: u => (false, u)
        | '-' :: u => (true, u)
        | u => (false, u)
      let p := takeDigits sp.2
      if p.1 = [] then none else some (sp.1, p.1, p.2)
    else some (false, [], c :: t)

/-- Parse a JSON number token into its rational value (sign, integer part
without redundant leading zeros, optional fraction, optional exponent). -/
def parseNum (cs : List Char) : Option (ℚ × List Char) :=
  let sp := match cs with
    | '-' :: t => (true, t)
    | _ => (false, cs)
  let ip := takeDigits sp.2
  if ip.1 = [] then none
  else if ip.1.head? = some '0' ∧ ip.1.length ≠ 1 then none
  else
    match parseFrac ip.2 with
    | none => none
    | some (fds, cs3) =>
      match parseExp cs3 with
      | none => none
      | some (esign, eds, cs4) =>
        let mag : ℚ := (digitsVal ip.1 : ℚ) + (digitsVal fds : ℚ) / 10 ^ fds.length
        let mag2 : ℚ := if esign then mag / 10 ^ digitsVal eds else mag * 10 ^ digitsVal eds
        some ((if sp.1 then -mag2 else mag2), cs4)

mutual

/-- Fuel-indexed JSON value parser (the recursion budget only bounds the
nesting of containers; every other construct is parsed structurally). -/
def parseVal : ℕ → List Char → Option (Json × List Char)
  | 0, _ => none
  | f + 1, cs =>
    match skipWs cs with
    | [] => none
    | c :: cs1 =>
      if c = '\x7b' then
        match skipWs cs1 with
        | '\x7d' :: r => some (.obj [], r)
        | r => (parseMembers f r).map (fun p => (.obj p.1, p.2))
      else if c = '[' then
        match skipWs cs1 with
        | ']' :: r => some (.arr [], r)
        | r => (parseElems f r).map (fun p => (.arr p.1, p.2))
      else if c = '"' then (parseStrBody cs1).map (fun p => (.str (String.mk p.1), p.2))
      else if c = 't' then
        match cs1 with
        | 'r' :: 'u' :: 'e' :: r => some (.bool true, r)
        | _ => none
      else if c = 'f' then
        match cs1 with
        | 'a' :: 'l' :: 's' :: 'e' :: r => some (.bool false, r)
        | _ => none
      else if c = 'n' then
        match cs1 with
        | 'u' :: 'l' :: 'l' :: r => some (.null, r)
        | _ => none
      else (parseNum (c :: cs1)).map (fun p => (.num p.1, p.2))

/-- Parse the elements of a non-empty array up to the closing bracket. -/
def parseElems : ℕ → List Char → Option (List Json × List Char)
  | 0, _ => none
  | f + 1, cs =>
    match parseVal f cs with
    | none => none
    | some (v, r) =>
      match skipWs r with
      | ',' :: r2 => (parseElems f r2).map (fun p => (v :: p.1, p.2))
      | ']' :: r2 => some ([v], r2)
      | _ => none

/-- Parse the members of a non-empty object (input already begins at the
first key) up to the closing brace. -/
def parseMembers : ℕ → List Char → Option (List (String × Json) × List Char)
  | 0, _ => none
  | f + 1, cs =>
    match cs with
    | '"' :: cs1 =>
      match parseStrBody cs1 with
      | none => none
      | some (k, r) =>
        match skipWs r with
        | ':' :: r2 =>
          match parseVal f r2 with
          | none => none
          | some (v, r3) =>
            match skipWs r3 with
            | ',' :: r4 => (parseMembers f (skipWs r4)).map (fun p => ((String.mk k, v) :: p.1, p.2))
            | '\x7d' :: r4 => some ([(String.mk k, v)], r4)
            | _ => none
        | _ => none
    | _ => none

end

/-- `JSON.parse`: parse a complete JSON document, allowing surrounding
whitespace and rejecting trailing input.  The fuel `s.length + 1` always
covers the nesting depth of a parsable document. -/
def parseJson (s : String) : Option Json :=
  match parseVal (s.length + 1) s.data with
  | some (v, r) => if skipWs r = [] then some v else none
  | none => none

/-! ## JavaScript dynamic semantics used by the pack

`Option Json` models a JavaScript value that may be `undefined`
(`none` = `undefined`, `some .null` = `null`). -/

/-- JavaScript truthiness of a defined value. -/
def truthy : Json → Bool
  | .null => false
  | .bool b => b
  | .num q => decide (q ≠ 0)
  | .str s => decide (s ≠ "")
  | .arr _ => true
  | .obj _ => true

/-- JavaScript truthiness, with `undefined` falsy. -/
def truthyOpt : Option Json → Bool
  | none => false
  | some v => truthy v

/-- Property lookup on a parsed JSON object.  `JSON.parse` lets a later
duplicate key override an earlier one, hence the reverse lookup. -/
def getProp (kvs : List (String × Json)) (k : String) : Option Json :=
  kvs.reverse.lookup k

/-- JavaScript member access `x.f`: throws a `TypeError` on `undefined`
and `null`, reads a property of objects, exposes `length` on strings and
arrays, and yields `undefined` on other primitives. -/
def jsMember (v : Option Json) (f : String) : Except String (Option Json) :=
  match v with
  | none => .error "TypeError: cannot read properties of undefined"
  | some .null => .error "TypeError: cannot read properties of null"
  | some (.obj kvs) => .ok (getProp kvs f)
  | some (.str s) => .ok (if f = "length" then some (.num s.length) else none)
  | some (.arr xs) => .ok (if f = "length" then some (.num xs.length) else none)
  | some _ => .ok none

/-- JavaScript optional chaining `x?.f`: `undefined` on `undefined`/`null`
instead of throwing. -/
def jsMemberOpt (v : Option Json) (f : String) : Except String (Option Json) :=
  match v with
  | none => .ok none
  | some .null => .ok none
  | some x => jsMember (some x) f

/-- JavaScript index access `x[0]`: throws on `undefined`/`null`, takes the
first element of an array, the first character of a string, the `"0"`
property of an object, and `undefined` otherwise. -/
def jsIndex0 : Option Json → Except String (Option Json)
  | none => .error "TypeError: cannot read properties of undefined"
  | some .null => .error "TypeError: cannot read properties of null"
  | some (.arr xs) => .ok xs.head?
  | some (.str s) =>
    .ok (match s.data with
      | [] => none
      | c :: _ => some (.str (String.mk [c])))
  | some (.obj kvs) => .ok (getProp kvs "0")
  | some _ => .ok none

/-- JavaScript `String(x)` conversion for the values this pack converts
(numbers print with the same decimal notation as `JSON.stringify`; the
element-joining conversion of arrays is summarized by a placeholder, as
no claim depends on it). -/
def jsToString : Option Json → String
  | none => "undefined"
  | some .null => "null"
  | some (.bool true) => "true"
  | some (.bool false) => "false"
  | some (.num q) => String.mk (printNumL q)
  | some (.str s) => s
  | some (.arr _) => "<array>"
  | some (.obj _) => "[object Object]"

/-- JavaScript `x || d` on a possibly-undefined left operand. -/
def jsOr (v : Option Json) (dflt : Json) : Json :=
  match v with
  | none => dflt
  | some x => if truthy x then x else dflt

/-! ## generateEmbedding (src/pack.ts lines 92-124) -/

/-- The fetch collaborator's answer: a status code and the parsed JSON
body (`none` when the body is `undefined`). -/
structure FetchResponse where
  status : ℕ
  body : Option Json

/-- The record object literal built by `generateEmbedding` (lines
115-123).  `embedding` and `model` are raw response values and may be
`undefined`; `prompt_tokens`/`total_tokens` are always defined thanks to
the `|| 0` defaults. -/
structure GenRecord where
  id : String
  input : String
  embedding : Option Json
  formatted : String
  model : Option Json
  prompt_tokens : Json
  total_tokens : Json

/-- The response handling of `generateEmbedding` (src/pack.ts lines
104-124), with errors as `Except.error` carrying the thrown message. -/
def generateEmbedding (text _model : String) (resp : FetchResponse) :
    Except String GenRecord := do
  let dat := resp.body
  if resp.status ≠ 200 then
    let errObj ← jsMember dat "error"
    let msg ← jsMemberOpt errObj "message"
    throw (if truthyOpt msg then jsToString msg else "Failed to generate embedding")
  let d ← jsMember dat "data"
  let isEmpty ←
    if truthyOpt d = false then pure true
    else do
      let len ← jsMember d "length"
      pure (match len with
        | some (Json.num q) => decide (q = 0)
        | _ => false)
  if isEmpty then throw "No embedding returned from OpenAI"
  let embObj ← jsIndex0 d
  let idx ← jsMember embObj "index"
  let emb ← jsMember embObj "embedding"
  let usage ← jsMember dat "usage"
  let pt ← jsMemberOpt usage "prompt_tokens"
  let tt ← jsMemberOpt usage "total_tokens"
  let mdl ← jsMember dat "model"
  pure
    { id := jsToString idx
      input := text
      embedding := emb
      formatted := "Embedding Object"
      model := mdl
      prompt_tokens := jsOr pt (Json.num 0)
      total_tokens := jsOr tt (Json.num 0) }

/-- The members `JSON.stringify` serializes for the record object, in
insertion order; properties whose value is `undefined` are omitted. -/
def genRecordMembers (g : GenRecord) : List (String × Json) :=
  [("id", Json.str g.id), ("input", Json.str g.input)]
    ++ (match g.embedding with
      | some v => [("embedding", v)]
      | none => [])
    ++ [("formatted", Json.str g.formatted)]
    ++ (match g.model with
      | some v => [("model", v)]
      | none => [])
    ++ [("prompt_tokens", g.prompt_tokens), ("total_tokens", g.total_tokens)]

/-- `JSON.stringify(result)` as performed by `GenerateEmbedding.execute`
(src/pack.ts line 149). -/
def stringifyGenRecord (g : GenRecord) : String :=
  String.mk (printJsonL (Json.obj (genRecordMembers g)))

/-- `GenerateEmbedding.execute` (src/pack.ts lines 146-150): default the
model name, call the helper, and serialize the resulting record. -/
def GenerateEmbeddingExecute (text : String) (modelArg : Option String)
    (resp : FetchResponse) : Except String String :=
  let model := match modelArg with
    | some m => m
    | none => "text-embedding-3-small"
  (generateEmbedding text model resp).map stringifyGenRecord

/-! ## FormatEmbedding (src/pack.ts lines 62-88) -/

/-- The sentinel record returned for empty/absent input. -/
def noDataRecord : Json :=
  Json.obj [("id", Json.str ""), ("input", Json.str ""), ("embedding", Json.arr []),
    ("formatted", Json.str "No data"), ("model", Json.str ""),
    ("prompt_tokens", Json.num 0), ("total_tokens", Json.num 0)]

/-- The sentinel record returned when `JSON.parse` throws. -/
def invalidRecord : Json :=
  Json.obj [("id", Json.str ""), ("input", Json.str ""), ("embedding", Json.arr []),
    ("formatted", Json.str "Invalid embedding record JSON"), ("model", Json.str ""),
    ("prompt_tokens", Json.num 0), ("total_tokens", Json.num 0)]

/-- `FormatEmbedding.execute`: empty/absent input yields the no-data
sentinel, unparsable input yields the invalid sentinel, and a successful
parse is returned unchanged. -/
def FormatEmbedding (embeddingRecordStr : Option String) : Json :=
  match embeddingRecordStr with
  | none => noDataRecord
  | some s =>
    if s = "" then noDataRecord
    else
      match parseJson s with
      | some v => v
      | none => invalidRecord

/-! ## Valid embedding records (the data model of the spec) -/

/-- A fully-populated embedding record: the seven fields with their
intended types. -/
structure EmbeddingRecord where
  id : String
  input : String
  embedding : List ℚ
  formatted : String
  model : String
  prompt_tokens : ℚ
  total_tokens : ℚ

/-- View a valid record as the object literal `generateEmbedding` builds. -/
def recordToGen (r : EmbeddingRecord) : GenRecord :=
  { id := r.id
    input := r.input
    embedding := some (Json.arr (r.embedding.map Json.num))
    formatted := r.formatted
    model := some (Json.str r.model)
    prompt_tokens := Json.num r.prompt_tokens
    total_tokens := Json.num r.total_tokens }

/-- The JSON value carrying exactly the seven fields of a valid record. -/
def recordToJson (r : EmbeddingRecord) : Json :=
  Json.obj (genRecordMembers (recordToGen r))

/-- The transport string `GenerateEmbedding` outputs for a valid record. -/
def serializeRecord (r : EmbeddingRecord) : String :=
  stringifyGenRecord (recordToGen r)

/-- A rational is a finite decimal (the idealization of "finite JS
number": every finite double is one). -/
def DecFinite (q : ℚ) : Prop := q.den ∣ 10 ^ q.den

instance (q : ℚ) : Decidable (DecFinite q) := by unfold DecFinite; infer_instance

/-! ## CosineSimilarity (src/pack.ts lines 169-183)

Real numbers idealize JavaScript floats; the accumulation loop over
`i < length` is the sum over the zipped lists (the lengths are equal
whenever the loop runs). -/

/-- The loop accumulator `Σ aᵢ·bᵢ` (also `normA`/`normB` with `b := a`). -/
noncomputable def sumProd (a b : List ℝ) : ℝ :=
  (List.zipWith (fun x y => x * y) a b).sum

open Classical in
/-- `CosineSimilarity.execute`: length guard, zero-norm guard, then the
normalized dot product. -/
noncomputable def cosineSimilarity (a b : List ℝ) : Except String ℝ :=
  if a.length ≠ b.length then .error "Both embeddings must be of the same length."
  else if sumProd a a = 0 ∨ sumProd b b = 0 then .ok 0
  else .ok (sumProd a b / (Real.sqrt (sumProd a a) * Real.sqrt (sumProd b b)))

/-! ## Digit printing lemmas -/

theorem natToDigitsAux_fuel : ∀ n f f', n ≤ f → n ≤ f' →
    natToDigitsAux f n = natToDigitsAux f' n := by
  intro n
  induction n using Nat.strong_induction_on with
  | _ n ih =>
    intro f f' hf hf'
    match f, f' with
    | 0, 0 => rfl
    | 0, g + 1 =>
      have hn : n = 0 := Nat.le_zero.mp hf
      subst hn; simp [natToDigitsAux]
    | g + 1, 0 =>
      have hn : n = 0 := Nat.le_zero.mp hf'
      subst hn; simp [natToDigitsAux]
    | g + 1, g' + 1 =>
      by_cases h : n < 10
      · simp [natToDigitsAux, h]
      · have hd : n / 10 < n := Nat.div_lt_self (by omega) (by omega)
        simp only [natToDigitsAux, if_neg h]
        rw [ih (n / 10) hd g g' (by omega) (by omega)]

/-- The recursive unfolding of `natToDigits`. -/
theorem natToDigits_eq (n : ℕ) :
    natToDigits n = if n < 10 then [digitChar n]
      else natToDigits (n / 10) ++ [digitChar (n % 10)] := by
  match n with
  | 0 => simp [natToDigits, natToDigitsAux]
  | m + 1 =>
    by_cases h : m + 1 < 10
    · simp [natToDigits, natToDigitsAux, h]
    · have hd : (m + 1) / 10 < m + 1 := Nat.div_lt_self (by omega) (by omega)
      simp only [natToDigits, natToDigitsAux, if_neg h]
      rw [natToDigitsAux_fuel ((m + 1) / 10) m ((m + 1) / 10) (by omega) (le_refl _)]

theorem digitChar_isDigit (d : ℕ) (h : d < 10) : (digitChar d).isDigit = true := by
  interval_cases d <;> decide

theorem digitChar_toNat (d : ℕ) (h : d < 10) : (digitChar d).toNat = 48 + d := by
  interval_cases d <;> decide

theorem natToDigits_ne_nil (n : ℕ) : natToDigits n ≠ [] := by
  rw [natToDigits_eq]
  split <;> simp

theorem natToDigits_all_digits (n : ℕ) :
    ∀ c ∈ natToDigits n, ∃ d, d < 10 ∧ c = digitChar d := by
  induction n using Nat.strong_induction_on with
  | _ n ih =>
    rw [natToDigits_eq]
    split
    · next h =>
      intro c hc
      simp only [List.mem_singleton] at hc
      exact ⟨n, h, hc⟩
    · next h =>
      intro c hc
      rcases List.mem_append.mp hc with hc | hc
      · exact ih (n / 10) (Nat.div_lt_self (by omega) (by omega)) c hc
      · rw [List.mem_singleton] at hc
        exact ⟨n % 10, by omega, hc⟩

theorem natToDigits_zero : natToDigits 0 = ['0'] := rfl

theorem natToDigits_head_ne_zero (n : ℕ) (h : 1 ≤ n) :
    ∀ c t, natToDigits n = c :: t → c ≠ '0' := by
  induction n using Nat.strong_induction_on with
  | _ n ih =>
    intro c t hct
    rw [natToDigits_eq] at hct
    split at hct
    · next hn =>
      have hc : digitChar n = c := by
        simpa using congrArg (fun l => l.head?) hct
      subst hc
      interval_cases n <;> decide
    · next hn =>
      obtain ⟨c', t', he⟩ := List.exists_cons_of_ne_nil (natToDigits_ne_nil (n / 10))
      rw [he, List.cons_append] at hct
      obtain ⟨hc, -⟩ := List.cons_eq_cons.mp hct
      exact hc ▸ ih (n / 10) (Nat.div_lt_self (by omega) (by omega)) (by omega) c' t' he

theorem digitsVal_go (b : List Char) (acc : ℕ) :
    b.foldl (fun a c => 10 * a + (c.toNat - 48)) acc = acc * 10 ^ b.length + digitsVal b := by
  induction b generalizing acc with
  | nil => simp [digitsVal]
  | cons c t ih =>
    simp only [List.foldl_cons, List.length_cons, digitsVal]
    rw [ih (10 * acc + (c.toNat - 48)), ih (10 * 0 + (c.toNat - 48))]
    ring

theorem digitsVal_append (a b : List Char) :
    digitsVal (a ++ b) = digitsVal a * 10 ^ b.length + digitsVal b := by
  simp only [digitsVal, List.foldl_append]
  exact digitsVal_go b _

theorem digitsVal_natToDigits (n : ℕ) : digitsVal (natToDigits n) = n := by
  induction n using Nat.strong_induction_on with
  | _ n ih =>
    rw [natToDigits_eq]
    split
    · next h =>
      simp [digitsVal, digitChar_toNat n h]
    · next h =>
      have h1 := ih (n / 10) (Nat.div_lt_self (by omega) (by omega))
      have h3 : digitsVal [digitChar (n % 10)] = n % 10 := by
        simp [digitsVal, digitChar_toNat (n % 10) (Nat.mod_lt _ (by omega))]
      rw [digitsVal_append, h1, h3]
      simp
      omega

theorem digitsVal_replicate_zero (z : ℕ) (t : List Char) :
    digitsVal (List.replicate z '0' ++ t) = digitsVal t := by
  induction z with
  | zero => simp
  | succ z ih =>
    rw [List.replicate_succ, List.cons_append]
    simpa [digitsVal] using ih

theorem decExp_dvd (d : ℕ) (hd : d ∣ 10 ^ d) : d ∣ 10 ^ decExp d := by
  unfold decExp
  cases hfind : (List.range (d + 1)).find? (fun k => decide (d ∣ 10 ^ k)) with
  | some k => simpa using List.find?_some hfind
  | none =>
    exfalso
    have hmem : d ∈ List.range (d + 1) := List.mem_range.mpr (by omega)
    have := List.find?_eq_none.mp hfind _ hmem
    simp at this
    exact this hd

theorem padDigits_length (k : ℕ) (l : List Char) :
    (padDigits k l).length = max (k + 1) l.length := by
  simp [padDigits]
  omega

theorem padDigits_all_digits (k : ℕ) (l : List Char)
    (hl : ∀ c ∈ l, ∃ d, d < 10 ∧ c = digitChar d) :
    ∀ c ∈ padDigits k l, ∃ d, d < 10 ∧ c = digitChar d := by
  intro c hc
  rcases List.mem_append.mp hc with hc | hc
  · have : c = '0' := List.eq_of_mem_replicate hc
    exact ⟨0, by omega, this⟩
  · exact hl c hc

theorem digitsVal_padDigits (k : ℕ) (l : List Char) :
    digitsVal (padDigits k l) = digitsVal l :=
  digitsVal_replicate_zero _ _

theorem takeDigits_append (ds r : List Char)
    (hds : ∀ c ∈ ds, c.isDigit = true) (hr : headDigit r = false) :
    takeDigits (ds ++ r) = (ds, r) := by
  induction ds with
  | nil =>
    cases r with
    | nil => rfl
    | cons c t =>
      simp only [headDigit] at hr
      simp [takeDigits, hr]
  | cons c t ih =>
    have hc : c.isDigit = true := hds c (by simp)
    simp [takeDigits, hc, ih (fun x hx => hds x (by simp [hx]))]

theorem numStop_spec (c : Char) (t : List Char) (h : numStop (c :: t) = true) :
    c.isDigit = false ∧ c ≠ '.' ∧ c ≠ 'e' ∧ c ≠ 'E' := by
  simp only [numStop, Bool.not_eq_true', Bool.or_eq_false_iff] at h
  refine ⟨h.1.1.1, ?_, ?_, ?_⟩ <;> simp_all

theorem parseFrac_stop (r : List Char) (hr : numStop r = true) :
    parseFrac r = some ([], r) := by
  cases r with
  | nil => rfl
  | cons c t =>
    obtain ⟨-, hdot, -, -⟩ := numStop_spec c t hr
    simp [parseFrac, hdot]

theorem parseFrac_frac (fds r : List Char) (hne : fds ≠ [])
    (hds : ∀ c ∈ fds, c.isDigit = true) (hr : headDigit r = false) :
    parseFrac ('.' :: (fds ++ r)) = some (fds, r) := by
  simp [parseFrac, takeDigits_append fds r hds hr, hne]

theorem parseExp_stop (r : List Char) (hr : numStop r = true) :
    parseExp r = some (false, [], r) := by
  cases r with
  | nil => rfl
  | cons c t =>
    obtain ⟨-, -, he, hE⟩ := numStop_spec c t hr
    simp [parseExp, he, hE]

/-! ## Basic lemmas about the vector-math accumulators -/

theorem sumProd_nil : sumProd [] [] = 0 := by
  simp [sumProd]

theorem sumProd_cons (x y : ℝ) (a b : List ℝ) :
    sumProd (x :: a) (y :: b) = x * y + sumProd a b := by
  simp [sumProd]

theorem sumProd_self_nonneg (a : List ℝ) : 0 ≤ sumProd a a := by
  induction a with
  | nil => simp [sumProd]
  | cons x t ih => rw [sumProd_cons]; exact add_nonneg (mul_self_nonneg x) ih

theorem sumProd_self_pos (a : List ℝ) (x : ℝ) (hx : x ∈ a) (hne : x ≠ 0) :
    0 < sumProd a a := by
  induction a with
  | nil => cases hx
  | cons y t ih =>
    rw [sumProd_cons]
    rcases List.mem_cons.mp hx with h | h
    · subst h
      exact add_pos_of_pos_of_nonneg (mul_self_pos.mpr hne) (sumProd_self_nonneg t)
    · exact add_pos_of_nonneg_of_pos (mul_self_nonneg y) (ih h)

/-- Cauchy-Schwarz for the accumulated sums, by induction on the lists. -/
theorem sumProd_sq_le (a b : List ℝ) (h : a.length = b.length) :
    sumProd a b ^ 2 ≤ sumProd a a * sumProd b b := by
  induction a generalizing b with
  | nil =>
    cases b with
    | nil => simp [sumProd]
    | cons y t => simp at h
  | cons x ta ih =>
    cases b with
    | nil => simp at h
    | cons y tb =>
      have hlen : ta.length = tb.length := by simpa using h
      have hAB := ih tb hlen
      have hA := sumProd_self_nonneg ta
      have hB := sumProd_self_nonneg tb
      rw [sumProd_cons, sumProd_cons, sumProd_cons]
      set d := sumProd ta tb with hd
      set A := sumProd ta ta with hA2
      set B := sumProd tb tb with hB2
      rcases eq_or_lt_of_le hA with hA0 | hA0
      · have hA' : A = 0 := hA0.symm
        have hd2 : d ^ 2 = 0 :=
          le_antisymm (by nlinarith) (sq_nonneg d)
        have hd0 : d = 0 := (pow_eq_zero_iff two_ne_zero).mp hd2
        rw [hd0, hA']
        nlinarith [mul_nonneg (mul_self_nonneg x) hB]
      · nlinarith [sq_nonneg (A * y - d * x), mul_nonneg hA (sub_nonneg.mpr hAB),
          mul_nonneg (sq_nonneg x) (sub_nonneg.mpr hAB)]

/-! ## Claim theorems: error handling of the formatter and the
similarity formula -/

/-- C3: FormatEmbedding never raises: absent or empty input yields the
"No data" sentinel record, and non-empty input that fails to parse under
the serialization format yields the "Invalid embedding record JSON"
sentinel record. -/
theorem formatEmbedding_total_fallbacks :
    FormatEmbedding none = noDataRecord ∧
    FormatEmbedding (some "") = noDataRecord ∧
    ∀ s : String, s ≠ "" → parseJson s = none → FormatEmbedding (some s) = invalidRecord := by
  refine ⟨rfl, rfl, fun s hne hp => ?_⟩
  simp [FormatEmbedding, hne, hp]

/-- Witness for C3 at the concrete malformed input `"{not valid}"`. -/
theorem formatEmbedding_total_fallbacks_witness :
    FormatEmbedding (some "\x7bnot valid\x7d") = invalidRecord :=
  formatEmbedding_total_fallbacks.2.2 "\x7bnot valid\x7d" (by decide) (by rfl)

/-- C9: a non-empty input that parses successfully is returned as-is,
with no schema validation of the decoded structure. -/
theorem formatEmbedding_passthrough (s : String) (v : Json) (hne : s ≠ "")
    (hp : parseJson s = some v) : FormatEmbedding (some s) = v := by
  simp [FormatEmbedding, hne, hp]

/-- Witness for C9: a syntactically valid payload missing all the record
fields except `id` is passed through unchanged. -/
theorem formatEmbedding_passthrough_witness :
    FormatEmbedding (some "\x7b\"id\":\"x\"\x7d") = Json.obj [("id", Json.str "x")] :=
  formatEmbedding_passthrough "\x7b\"id\":\"x\"\x7d" (Json.obj [("id", Json.str "x")])
    (by decide) (by rfl)

/-- C5: vectors of unequal length make cosineSimilarity fail with the
length-mismatch error instead of truncating or padding. -/
theorem cosineSimilarity_length_mismatch (a b : List ℝ) (h : a.length ≠ b.length) :
    cosineSimilarity a b = .error "Both embeddings must be of the same length." := by
  rw [cosineSimilarity, if_pos h]

/-- Witness for C5 at `[1]` and `[]`. -/
theorem cosineSimilarity_length_mismatch_witness :
    cosineSimilarity [(1 : ℝ)] [] = .error "Both embeddings must be of the same length." :=
  cosineSimilarity_length_mismatch [(1 : ℝ)] [] (by decide)

/-- C6: when either vector has Euclidean norm exactly zero the result is
`0` - a value, not NaN and not an error. -/
theorem cosineSimilarity_zero_norm (a b : List ℝ) (hlen : a.length = b.length)
    (h : Real.sqrt (sumProd a a) = 0 ∨ Real.sqrt (sumProd b b) = 0) :
    cosineSimilarity a b = .ok 0 := by
  have h' : sumProd a a = 0 ∨ sumProd b b = 0 := by
    rcases h with h | h
    · exact Or.inl (le_antisymm (Real.sqrt_eq_zero'.mp h) (sumProd_self_nonneg a))
    · exact Or.inr (le_antisymm (Real.sqrt_eq_zero'.mp h) (sumProd_self_nonneg b))
  rw [cosineSimilarity, if_neg (by simp [hlen]), if_pos h']

/-- Witness for C6 at the zero vector `[0, 0]` against `[1, 2]`. -/
theorem cosineSimilarity_zero_norm_witness :
    cosineSimilarity [(0 : ℝ), 0] [1, 2] = .ok 0 :=
  cosineSimilarity_zero_norm [(0 : ℝ), 0] [1, 2] rfl
    (Or.inl (by rw [show sumProd [(0 : ℝ), 0] [0, 0] = 0 by norm_num [sumProd]]; exact Real.sqrt_zero))

/-- C7: a vector with at least one nonzero entry has self-similarity
exactly 1, and the orthogonal pair `[1,0]`, `[0,1]` has similarity 0. -/
theorem cosineSimilarity_self_one (a : List ℝ) (h : ∃ x ∈ a, x ≠ 0) :
    cosineSimilarity a a = .ok 1 ∧ cosineSimilarity [(1 : ℝ), 0] [0, 1] = .ok 0 := by
  obtain ⟨x, hx, hxne⟩ := h
  have hA : 0 < sumProd a a := sumProd_self_pos a x hx hxne
  constructor
  · rw [cosineSimilarity, if_neg (by simp), if_neg (by simp [hA.ne']),
      Real.mul_self_sqrt hA.le, div_self hA.ne']
  · rw [cosineSimilarity, if_neg (by norm_num), if_neg (by norm_num [sumProd])]
    norm_num [sumProd]

/-- Witness for C7 at `[1,1]`, covering both scenario evaluations of the
claim. -/
theorem cosineSimilarity_self_one_witness :
    cosineSimilarity [(1 : ℝ), 1] [1, 1] = .ok 1 ∧
      cosineSimilarity [(1 : ℝ), 0] [0, 1] = .ok 0 :=
  cosineSimilarity_self_one [(1 : ℝ), 1] ⟨1, by simp, one_ne_zero⟩

/-- C8: on equal-length vectors the function always returns a value, and
that value lies in the closed interval `[-1, 1]`. -/
theorem cosineSimilarity_range (a b : List ℝ) (h : a.length = b.length) :
    ∃ r : ℝ, cosineSimilarity a b = .ok r ∧ -1 ≤ r ∧ r ≤ 1 := by
  rw [cosineSimilarity, if_neg (by simp [h])]
  by_cases hz : sumProd a a = 0 ∨ sumProd b b = 0
  · rw [if_pos hz]
    exact ⟨0, rfl, by norm_num, by norm_num⟩
  · rw [if_neg hz]
    push_neg at hz
    have hA : 0 < sumProd a a := lt_of_le_of_ne (sumProd_self_nonneg a) (Ne.symm hz.1)
    have hB : 0 < sumProd b b := lt_of_le_of_ne (sumProd_self_nonneg b) (Ne.symm hz.2)
    have hden : 0 < Real.sqrt (sumProd a a) * Real.sqrt (sumProd b b) :=
      mul_pos (Real.sqrt_pos.mpr hA) (Real.sqrt_pos.mpr hB)
    have habs : |sumProd a b| ≤ Real.sqrt (sumProd a a) * Real.sqrt (sumProd b b) := by
      rw [← Real.sqrt_mul (sumProd_self_nonneg a)]
      calc |sumProd a b| = Real.sqrt (sumProd a b ^ 2) := (Real.sqrt_sq_eq_abs _).symm
        _ ≤ Real.sqrt (sumProd a a * sumProd b b) := Real.sqrt_le_sqrt (sumProd_sq_le a b h)
    have hr : |sumProd a b / (Real.sqrt (sumProd a a) * Real.sqrt (sumProd b b))| ≤ 1 := by
      rw [abs_div, abs_of_pos hden]
      exact (div_le_one hden).mpr habs
    obtain ⟨h1, h2⟩ := abs_le.mp hr
    exact ⟨_, rfl, h1, h2⟩

/-- Witness for C8 at `[1,2]`, `[3,4]`. -/
theorem cosineSimilarity_range_witness :
    ∃ r : ℝ, cosineSimilarity [(1 : ℝ), 2] [3, 4] = .ok r ∧ -1 ≤ r ∧ r ≤ 1 :=
  cosineSimilarity_range [(1 : ℝ), 2] [3, 4] rfl

/-! ## Claim theorems: generateEmbedding -/

theorem jsOr_num_zero (q : ℚ) : jsOr (some (Json.num q)) (Json.num 0) = Json.num q := by
  by_cases h : q = 0 <;> simp [jsOr, truthy, h]

theorem jsOr_none (d : Json) : jsOr none d = d := rfl

theorem jsOr_falsy (v d : Json) (h : truthy v = false) : jsOr (some v) d = d := by
  simp [jsOr, h]

/-- C1: a 200 response whose body holds a non-empty data list yields the
record built from the first entry only: id is the string conversion of
its index, input is the original text, embedding is its vector, model is
the name reported in the body, formatted is the constant label, and the
token counts come from the usage block, defaulting to 0 when the whole
block is absent. -/
theorem generateEmbedding_success (text model : String) (resp : FetchResponse)
    (bd e : List (String × Json)) (iv ev mv : Json) (rest : List Json) (pt tt : ℚ)
    (hst : resp.status = 200)
    (hbody : resp.body = some (Json.obj bd))
    (hdata : getProp bd "data" = some (Json.arr (Json.obj e :: rest)))
    (hidx : getProp e "index" = some iv)
    (hemb : getProp e "embedding" = some ev)
    (hmodel : getProp bd "model" = some mv)
    (husage : (getProp bd "usage" = none ∧ pt = 0 ∧ tt = 0) ∨
      ∃ u : List (String × Json), getProp bd "usage" = some (Json.obj u) ∧
        getProp u "prompt_tokens" = some (Json.num pt) ∧
        getProp u "total_tokens" = some (Json.num tt)) :
    generateEmbedding text model resp =
      Except.ok ⟨jsToString (some iv), text, some ev, "Embedding Object", some mv,
        Json.num pt, Json.num tt⟩ := by
  have hlen : ((rest.length : ℚ) + 1) ≠ 0 := by positivity
  rcases husage with ⟨hu, hpt, htt⟩ | ⟨u, hu, hupt, hutt⟩
  · subst hpt htt
    simp [generateEmbedding, hst, hbody, hdata, hidx, hemb, hmodel, hu, hlen,
      jsMember, jsMemberOpt, jsIndex0, jsOr, truthyOpt, truthy,
      bind, Except.bind, pure, Except.pure, throw, throwThe, MonadExceptOf.throw]
  · simp [generateEmbedding, hst, hbody, hdata, hidx, hemb, hmodel, hu, hupt, hutt, hlen,
      jsMember, jsMemberOpt, jsIndex0, jsOr_num_zero, truthyOpt, truthy,
      bind, Except.bind, pure, Except.pure, throw, throwThe, MonadExceptOf.throw]

/-- Witness for C1: the end-to-end mock scenario of the spec. -/
theorem generateEmbedding_success_witness :
    generateEmbedding "hello world" "text-embedding-3-small"
      ⟨200, some (Json.obj [("data", Json.arr [Json.obj [("index", Json.num 0),
        ("embedding", Json.arr [Json.num (1/10), Json.num (2/10), Json.num (3/10)])]]),
        ("model", Json.str "text-embedding-3-small"),
        ("usage", Json.obj [("prompt_tokens", Json.num 2), ("total_tokens", Json.num 2)])])⟩ =
      Except.ok ⟨"0", "hello world",
        some (Json.arr [Json.num (1/10), Json.num (2/10), Json.num (3/10)]),
        "Embedding Object", some (Json.str "text-embedding-3-small"),
        Json.num 2, Json.num 2⟩ := by
  have h := generateEmbedding_success "hello world" "text-embedding-3-small"
    ⟨200, some (Json.obj [("data", Json.arr [Json.obj [("index", Json.num 0),
      ("embedding", Json.arr [Json.num (1/10), Json.num (2/10), Json.num (3/10)])]]),
      ("model", Json.str "text-embedding-3-small"),
      ("usage", Json.obj [("prompt_tokens", Json.num 2), ("total_tokens", Json.num 2)])])⟩
    [("data", Json.arr [Json.obj [("index", Json.num 0),
      ("embedding", Json.arr [Json.num (1/10), Json.num (2/10), Json.num (3/10)])]]),
      ("model", Json.str "text-embedding-3-small"),
      ("usage", Json.obj [("prompt_tokens", Json.num 2), ("total_tokens", Json.num 2)])]
    [("index", Json.num 0),
      ("embedding", Json.arr [Json.num (1/10), Json.num (2/10), Json.num (3/10)])]
    (Json.num 0) (Json.arr [Json.num (1/10), Json.num (2/10), Json.num (3/10)])
    (Json.str "text-embedding-3-small") [] 2 2 rfl rfl (by rfl) (by rfl) (by rfl) (by rfl)
    (Or.inr ⟨[("prompt_tokens", Json.num 2), ("total_tokens", Json.num 2)],
      by rfl, by rfl, by rfl⟩)
  rw [show jsToString (some (Json.num 0)) = "0" by decide] at h
  exact h

/-- C10: with a usage block present, each token field defaults to 0
independently - an absent or falsy `prompt_tokens` yields 0 while a
numeric `total_tokens` is kept, and symmetrically. -/
theorem generateEmbedding_usage_field_defaults (text model : String)
    (bd e u : List (String × Json)) (iv ev mv : Json) (rest : List Json)
    (hdata : getProp bd "data" = some (Json.arr (Json.obj e :: rest)))
    (hidx : getProp e "index" = some iv)
    (hemb : getProp e "embedding" = some ev)
    (hmodel : getProp bd "model" = some mv)
    (hu : getProp bd "usage" = some (Json.obj u)) :
    (∀ tv : ℚ, (getProp u "prompt_tokens" = none ∨
        ∃ pv, getProp u "prompt_tokens" = some pv ∧ truthy pv = false) →
      getProp u "total_tokens" = some (Json.num tv) →
      generateEmbedding text model ⟨200, some (Json.obj bd)⟩ =
        Except.ok ⟨jsToString (some iv), text, some ev, "Embedding Object", some mv,
          Json.num 0, Json.num tv⟩) ∧
    (∀ pv : ℚ, getProp u "prompt_tokens" = some (Json.num pv) →
      (getProp u "total_tokens" = none ∨
        ∃ tv2, getProp u "total_tokens" = some tv2 ∧ truthy tv2 = false) →
      generateEmbedding text model ⟨200, some (Json.obj bd)⟩ =
        Except.ok ⟨jsToString (some iv), text, some ev, "Embedding Object", some mv,
          Json.num pv, Json.num 0⟩) := by
  have hlen : ((rest.length : ℚ) + 1) ≠ 0 := by positivity
  constructor
  · intro tv hpt htt
    rcases hpt with hpt | ⟨pv, hpt, hpvf⟩
    · simp [generateEmbedding, hdata, hidx, hemb, hmodel, hu, hpt, htt, hlen,
        jsMember, jsMemberOpt, jsIndex0, jsOr_none, jsOr_num_zero, truthyOpt, truthy,
        bind, Except.bind, pure, Except.pure, throw, throwThe, MonadExceptOf.throw]
    · simp [generateEmbedding, hdata, hidx, hemb, hmodel, hu, hpt, htt, hlen,
        jsMember, jsMemberOpt, jsIndex0, jsOr_falsy pv (Json.num 0) hpvf, jsOr_num_zero,
        truthyOpt, truthy,
        bind, Except.bind, pure, Except.pure, throw, throwThe, MonadExceptOf.throw]
  · intro pv hpt htt
    rcases htt with htt | ⟨tv2, htt, htvf⟩
    · simp [generateEmbedding, hdata, hidx, hemb, hmodel, hu, hpt, htt, hlen,
        jsMember, jsMemberOpt, jsIndex0, jsOr_none, jsOr_num_zero, truthyOpt, truthy,
        bind, Except.bind, pure, Except.pure, throw, throwThe, MonadExceptOf.throw]
    · simp [generateEmbedding, hdata, hidx, hemb, hmodel, hu, hpt, htt, hlen,
        jsMember, jsMemberOpt, jsIndex0, jsOr_falsy tv2 (Json.num 0) htvf, jsOr_num_zero,
        truthyOpt, truthy,
        bind, Except.bind, pure, Except.pure, throw, throwThe, MonadExceptOf.throw]

/-- Witness for C10: a usage block lacking `prompt_tokens` keeps the
numeric `total_tokens`, and one with a falsy (empty-string)
`total_tokens` keeps the numeric `prompt_tokens`. -/
theorem generateEmbedding_usage_field_defaults_witness :
    generateEmbedding "t" "m" ⟨200, some (Json.obj
      [("data", Json.arr [Json.obj [("index", Json.num 1), ("embedding", Json.arr [])]]),
        ("model", Json.str "m2"), ("usage", Json.obj [("total_tokens", Json.num 5)])])⟩ =
      Except.ok ⟨jsToString (some (Json.num 1)), "t", some (Json.arr []),
        "Embedding Object", some (Json.str "m2"), Json.num 0, Json.num 5⟩ ∧
    generateEmbedding "t" "m" ⟨200, some (Json.obj
      [("data", Json.arr [Json.obj [("index", Json.num 1), ("embedding", Json.arr [])]]),
        ("model", Json.str "m2"),
        ("usage", Json.obj [("prompt_tokens", Json.num 5), ("total_tokens", Json.str "")])])⟩ =
      Except.ok ⟨jsToString (some (Json.num 1)), "t", some (Json.arr []),
        "Embedding Object", some (Json.str "m2"), Json.num 5, Json.num 0⟩ := by
  constructor
  · exact (generateEmbedding_usage_field_defaults "t" "m"
      [("data", Json.arr [Json.obj [("index", Json.num 1), ("embedding", Json.arr [])]]),
        ("model", Json.str "m2"), ("usage", Json.obj [("total_tokens", Json.num 5)])]
      [("index", Json.num 1), ("embedding", Json.arr [])]
      [("total_tokens", Json.num 5)]
      (Json.num 1) (Json.arr []) (Json.str "m2") []
      (by rfl) (by rfl) (by rfl) (by rfl) (by rfl)).1 5 (Or.inl (by rfl)) (by rfl)
  · exact (generateEmbedding_usage_field_defaults "t" "m"
      [("data", Json.arr [Json.obj [("index", Json.num 1), ("embedding", Json.arr [])]]),
        ("model", Json.str "m2"),
        ("usage", Json.obj [("prompt_tokens", Json.num 5), ("total_tokens", Json.str "")])]
      [("index", Json.num 1), ("embedding", Json.arr [])]
      [("prompt_tokens", Json.num 5), ("total_tokens", Json.str "")]
      (Json.num 1) (Json.arr []) (Json.str "m2") []
      (by rfl) (by rfl) (by rfl) (by rfl) (by rfl)).2 5 (by rfl)
      (Or.inr ⟨Json.str "", by rfl, by rfl⟩)

theorem jsMemberOpt_isOk (v : Option Json) (f : String) :
    ∃ w, jsMemberOpt v f = .ok w := by
  match v with
  | none => exact ⟨none, rfl⟩
  | some .null => exact ⟨none, rfl⟩
  | some (.obj kvs) => exact ⟨_, rfl⟩
  | some (.str s) => exact ⟨_, rfl⟩
  | some (.arr xs) => exact ⟨_, rfl⟩
  | some (.num q) => exact ⟨_, rfl⟩
  | some (.bool b) => exact ⟨_, rfl⟩

/-- C4 counterexample: a 401 response whose provider error message is
present but empty makes generateEmbedding throw the generic message
rather than the provider's message, refuting the claim as stated. -/
theorem generateEmbedding_error_message_counterexample :
    generateEmbedding "t" "m"
        ⟨401, some (Json.obj [("error", Json.obj [("message", Json.str "")])])⟩ =
      Except.error "Failed to generate embedding" ∧
    (Except.error "Failed to generate embedding" : Except String GenRecord) ≠
      Except.error "" := by
  refine ⟨rfl, fun h => ?_⟩
  injection h with h'
  exact absurd h' (by decide)

/-- C4 amended: over responses whose body is a JSON object, a non-200
status yields the provider's error message only when it is present and
truthy (non-empty), and the generic message otherwise; a 200 status with
the data field absent, null, or an empty array yields the
no-embedding-returned error; and a 200 status whose data field is a
non-empty array headed by an object succeeds. -/
theorem generateEmbedding_failure_modes :
    (∀ (text model : String) (st : ℕ) (bd eo : List (String × Json)) (m : String),
      st ≠ 200 → getProp bd "error" = some (Json.obj eo) →
      getProp eo "message" = some (Json.str m) → m ≠ "" →
      generateEmbedding text model ⟨st, some (Json.obj bd)⟩ = Except.error m) ∧
    (∀ (text model : String) (st : ℕ) (bd : List (String × Json)),
      st ≠ 200 →
      (getProp bd "error" = none ∨ getProp bd "error" = some Json.null ∨
        ∃ eo, getProp bd "error" = some (Json.obj eo) ∧
          (getProp eo "message" = none ∨ getProp eo "message" = some (Json.str ""))) →
      generateEmbedding text model ⟨st, some (Json.obj bd)⟩ =
        Except.error "Failed to generate embedding") ∧
    (∀ (text model : String) (bd : List (String × Json)),
      (getProp bd "data" = none ∨ getProp bd "data" = some Json.null ∨
        getProp bd "data" = some (Json.arr [])) →
      generateEmbedding text model ⟨200, some (Json.obj bd)⟩ =
        Except.error "No embedding returned from OpenAI") ∧
    (∀ (text model : String) (bd e : List (String × Json)) (rest : List Json),
      getProp bd "data" = some (Json.arr (Json.obj e :: rest)) →
      ∃ g, generateEmbedding text model ⟨200, some (Json.obj bd)⟩ = Except.ok g) := by
  refine ⟨?_, ?_, ?_, ?_⟩
  · intro text model st bd eo m hst herr hmsg hm
    simp [generateEmbedding, hst, herr, hmsg, hm, jsMember, jsMemberOpt,
      truthyOpt, truthy, jsToString,
      bind, Except.bind, pure, Except.pure, throw, throwThe, MonadExceptOf.throw]
  · intro text model st bd hst herr
    rcases herr with herr | herr | ⟨eo, herr, hmsg⟩
    · simp [generateEmbedding, hst, herr, jsMember, jsMemberOpt, truthyOpt,
        bind, Except.bind, pure, Except.pure, throw, throwThe, MonadExceptOf.throw]
    · simp [generateEmbedding, hst, herr, jsMember, jsMemberOpt, truthyOpt,
        bind, Except.bind, pure, Except.pure, throw, throwThe, MonadExceptOf.throw]
    · rcases hmsg with hmsg | hmsg <;>
        simp [generateEmbedding, hst, herr, hmsg, jsMember, jsMemberOpt, truthyOpt, truthy,
          bind, Except.bind, pure, Except.pure, throw, throwThe, MonadExceptOf.throw]
  · intro text model bd hdata
    rcases hdata with hdata | hdata | hdata <;>
      simp [generateEmbedding, hdata, jsMember, jsMemberOpt, truthyOpt, truthy,
        bind, Except.bind, pure, Except.pure, throw, throwThe, MonadExceptOf.throw]
  · intro text model bd e rest hdata
    have hlen : ((rest.length : ℚ) + 1) ≠ 0 := by positivity
    obtain ⟨w1, hw1⟩ := jsMemberOpt_isOk (getProp bd "usage") "prompt_tokens"
    obtain ⟨w2, hw2⟩ := jsMemberOpt_isOk (getProp bd "usage") "total_tokens"
    refine ⟨⟨jsToString (getProp e "index"), text, getProp e "embedding",
      "Embedding Object", getProp bd "model", jsOr w1 (Json.num 0), jsOr w2 (Json.num 0)⟩, ?_⟩
    simp [generateEmbedding, hdata, hw1, hw2, hlen,
      jsMember, jsIndex0, truthyOpt, truthy,
      bind, Except.bind, pure, Except.pure, throw, throwThe, MonadExceptOf.throw]

/-- Witness for C4's amended failure modes at four concrete responses,
including the spec's 401 "invalid key" scenario. -/
theorem generateEmbedding_failure_modes_witness :
    generateEmbedding "t" "m"
        ⟨401, some (Json.obj [("error", Json.obj [("message", Json.str "invalid key")])])⟩ =
      Except.error "invalid key" ∧
    generateEmbedding "t" "m" ⟨500, some (Json.obj [])⟩ =
      Except.error "Failed to generate embedding" ∧
    generateEmbedding "t" "m" ⟨200, some (Json.obj [("data", Json.arr [])])⟩ =
      Except.error "No embedding returned from OpenAI" ∧
    ∃ g, generateEmbedding "t" "m"
        ⟨200, some (Json.obj [("data", Json.arr [Json.obj []])])⟩ = Except.ok g := by
  refine ⟨?_, ?_, ?_, ?_⟩
  · exact generateEmbedding_failure_modes.1 "t" "m" 401
      [("error", Json.obj [("message", Json.str "invalid key")])]
      [("message", Json.str "invalid key")] "invalid key"
      (by decide) (by rfl) (by rfl) (by decide)
  · exact generateEmbedding_failure_modes.2.1 "t" "m" 500 [] (by decide) (Or.inl (by rfl))
  · exact generateEmbedding_failure_modes.2.2.1 "t" "m" [("data", Json.arr [])]
      (Or.inr (Or.inr (by rfl)))
  · exact generateEmbedding_failure_modes.2.2.2 "t" "m"
      [("data", Json.arr [Json.obj []])] [] [] (by rfl)


theorem int_frac_value (I F m k den nabs : ℕ) (hval : I * 10 ^ k + F = m)
    (hm : m * den = nabs * 10 ^ k) (hden : den ≠ 0) :
    (I : ℚ) + (F : ℚ) / 10 ^ k = (nabs : ℚ) / den := by
  have h10 : (10 : ℚ) ^ k ≠ 0 := by positivity
  have hden' : (den : ℚ) ≠ 0 := Nat.cast_ne_zero.mpr hden
  have hval' : (I : ℚ) * 10 ^ k + F = m := by exact_mod_cast hval
  have hm' : (m : ℚ) * den = nabs * 10 ^ k := by exact_mod_cast hm
  field_simp
  linear_combination (den : ℚ) * hval' + hm'

theorem headDigit_of_numStop (r : List Char) (hr : numStop r = true) :
    headDigit r = false := by
  cases r with
  | nil => rfl
  | cons c t => exact (numStop_spec c t hr).1

theorem parseNum_printNum (q : ℚ) (hq : DecFinite q) (r : List Char)
    (hr : numStop r = true) : parseNum (printNumL q ++ r) = some (q, r) := by
  have hrd : headDigit r = false := headDigit_of_numStop r hr
  rw [printNumL]
  set k := decExp q.den with hk
  set m := q.num.natAbs * (10 ^ k / q.den) with hmdef
  set ds := padDigits k (natToDigits m) with hdsdef
  set int := ds.take (ds.length - k) with hintdef
  set frac := ds.drop (ds.length - k) with hfracdef
  have hdvd : q.den ∣ 10 ^ k := decExp_dvd q.den hq
  have hdsdig : ∀ c ∈ ds, ∃ d, d < 10 ∧ c = digitChar d :=
    padDigits_all_digits _ _ (natToDigits_all_digits m)
  have hdsdig' : ∀ c ∈ ds, c.isDigit = true := by
    intro c hc
    obtain ⟨d, hd, rfl⟩ := hdsdig c hc
    exact digitChar_isDigit d hd
  have hlen : ds.length = max (k + 1) (natToDigits m).length := padDigits_length _ _
  have hlenk : k + 1 ≤ ds.length := by rw [hlen]; omega
  have hif : int ++ frac = ds := List.take_append_drop _ _
  have hil : int.length = ds.length - k := by
    rw [hintdef, List.length_take]; omega
  have hfl : frac.length = k := by
    rw [hfracdef, List.length_drop]; omega
  have hine : int ≠ [] := by
    intro h
    have := congrArg List.length h
    rw [hil] at this
    simp at this
    omega
  have hintdig : ∀ c ∈ int, c.isDigit = true := fun c hc =>
    hdsdig' c (hif ▸ List.mem_append.mpr (Or.inl hc))
  have hfracdig : ∀ c ∈ frac, c.isDigit = true := fun c hc =>
    hdsdig' c (hif ▸ List.mem_append.mpr (Or.inr hc))
  have hval : digitsVal int * 10 ^ k + digitsVal frac = m := by
    have h1 : digitsVal (int ++ frac) = digitsVal int * 10 ^ frac.length + digitsVal frac :=
      digitsVal_append int frac
    rw [hif, hfl] at h1
    rw [← h1, hdsdef, digitsVal_padDigits, digitsVal_natToDigits]
  have hmden : m * q.den = q.num.natAbs * 10 ^ k := by
    rw [hmdef, mul_assoc, Nat.div_mul_cancel hdvd]
  obtain ⟨c0, int', hint⟩ := List.exists_cons_of_ne_nil hine
  obtain ⟨d0, hd0, hc0⟩ : ∃ d, d < 10 ∧ c0 = digitChar d := by
    apply hdsdig c0
    rw [← hif, hint]
    simp
  have hnolead : ¬(int.head? = some '0' ∧ int.length ≠ 1) := by
    rintro ⟨hz, hlen1⟩
    have hc0z : c0 = '0' := by
      rw [hint] at hz
      simpa using hz
    by_cases hpad : (natToDigits m).length ≤ k
    · exact hlen1 (by rw [hil, hlen]; omega)
    · have hds' : ds = natToDigits m := by
        rw [hdsdef, padDigits, Nat.sub_eq_zero_of_le (by omega)]
        simp
      have hm1 : m ≠ 0 := by
        intro hm0
        apply hlen1
        rw [hm0, natToDigits_zero] at hpad
        simp at hpad
        rw [hil, hds', hm0, natToDigits_zero]
        simp [hpad]
      have hshape : natToDigits m = c0 :: (int' ++ frac) := by
        rw [← hds', ← hif, hint, List.cons_append]
      exact natToDigits_head_ne_zero m (by omega) c0 _ hshape hc0z
  have htail : headDigit ((if k = 0 then [] else '.' :: frac) ++ r) = false := by
    by_cases hk0 : k = 0
    · simpa [hk0] using hrd
    · simp [hk0, headDigit]
  have htd : takeDigits (int ++ ((if k = 0 then [] else '.' :: frac) ++ r)) =
      (int, (if k = 0 then [] else '.' :: frac) ++ r) :=
    takeDigits_append _ _ hintdig htail
  have hfracpart : parseFrac ((if k = 0 then [] else '.' :: frac) ++ r) =
      some (frac, r) := by
    by_cases hk0 : k = 0
    · have hfrac0 : frac = [] := List.length_eq_zero.mp (by rw [hfl, hk0])
      rw [hk0, hfrac0]
      simpa using parseFrac_stop r hr
    · have hfne : frac ≠ [] := by
        intro h
        rw [h] at hfl
        simp at hfl
        exact hk0 hfl.symm
      simpa [hk0] using parseFrac_frac frac r hfne hfracdig hrd
  have hvq : (digitsVal int : ℚ) + (digitsVal frac : ℚ) / 10 ^ k =
      (q.num.natAbs : ℚ) / (q.den : ℚ) :=
    int_frac_value _ _ m k _ _ hval hmden q.den_ne_zero
  by_cases hneg : q < 0
  · have hnum : q.num < 0 := by
      by_contra h
      exact absurd (Rat.num_nonneg.mp (by omega)) (not_le.mpr hneg)
    have habs : (q.num.natAbs : ℚ) = -(q.num : ℚ) := by
      rw [Int.cast_natAbs, abs_of_neg hnum]
      push_cast
      ring
    simp only [if_pos hneg, List.cons_append, List.nil_append, List.append_assoc]
    simp [parseNum, htd, hine, hnolead, hfracpart, parseExp_stop r hr, hfl]
    rw [show digitsVal [] = 0 from rfl, pow_zero, mul_one, hvq, habs, neg_div, neg_neg,
      Rat.num_div_den]
  · have hnn : (0 : ℤ) ≤ q.num := Rat.num_nonneg.mpr (not_lt.mp hneg)
    have habs : (q.num.natAbs : ℚ) = (q.num : ℚ) := by
      rw [Int.cast_natAbs, abs_of_nonneg hnn]
    have hc0ne : c0 ≠ '-' := by
      subst hc0
      interval_cases d0 <;> decide
    simp only [if_neg hneg, List.nil_append, List.append_assoc]
    rw [hint, List.cons_append]
    simp [parseNum, hc0ne]
    rw [← List.cons_append, ← hint, htd]
    simp [hine, hnolead, hfracpart, parseExp_stop r hr, hfl]
    rw [show digitsVal [] = 0 from rfl, pow_zero, mul_one, hvq, habs, Rat.num_div_den]
    exact ⟨fun h => not_not.mp (fun hne => hnolead ⟨h, hne⟩), rfl⟩

theorem hexVal_hexDigitChar (n : ℕ) (h : n < 16) : hexVal (hexDigitChar n) = some n := by
  interval_cases n <;> decide

theorem psb_quote (X : List Char) : parseStrBody ('"' :: X) = some ([], X) := by
  rw [parseStrBody.eq_def]
  simp

theorem psb_esc_quote (X : List Char) :
    parseStrBody ('\\' :: '"' :: X) = (parseStrBody X).map (fun p => ('"' :: p.1, p.2)) := by
  rw [parseStrBody.eq_def]
  simp

theorem psb_esc_bslash (X : List Char) :
    parseStrBody ('\\' :: '\\' :: X) = (parseStrBody X).map (fun p => ('\\' :: p.1, p.2)) := by
  rw [parseStrBody.eq_def]
  simp

theorem psb_esc_b (X : List Char) :
    parseStrBody ('\\' :: 'b' :: X) =
      (parseStrBody X).map (fun p => (Char.ofNat 8 :: p.1, p.2)) := by
  rw [parseStrBody.eq_def]
  simp

theorem psb_esc_t (X : List Char) :
    parseStrBody ('\\' :: 't' :: X) =
      (parseStrBody X).map (fun p => (Char.ofNat 9 :: p.1, p.2)) := by
  rw [parseStrBody.eq_def]
  simp

theorem psb_esc_n (X : List Char) :
    parseStrBody ('\\' :: 'n' :: X) =
      (parseStrBody X).map (fun p => (Char.ofNat 10 :: p.1, p.2)) := by
  rw [parseStrBody.eq_def]
  simp

theorem psb_esc_f (X : List Char) :
    parseStrBody ('\\' :: 'f' :: X) =
      (parseStrBody X).map (fun p => (Char.ofNat 12 :: p.1, p.2)) := by
  rw [parseStrBody.eq_def]
  simp

theorem psb_esc_r (X : List Char) :
    parseStrBody ('\\' :: 'r' :: X) =
      (parseStrBody X).map (fun p => (Char.ofNat 13 :: p.1, p.2)) := by
  rw [parseStrBody.eq_def]
  simp

theorem psb_esc_u (d1 d2 : Char) (a b : ℕ) (X : List Char)
    (h1 : hexVal d1 = some a) (h2 : hexVal d2 = some b) (ha : a < 16) (hb : b < 16) :
    parseStrBody ('\\' :: 'u' :: '0' :: '0' :: d1 :: d2 :: X) =
      (parseStrBody X).map (fun p => (Char.ofNat (16 * a + b) :: p.1, p.2)) := by
  rw [parseStrBody.eq_def]
  simp [h1, h2, show hexVal '0' = some 0 from by decide]
  intro h
  exact absurd h (by omega)

theorem psb_raw (c : Char) (X : List Char) (h1 : c ≠ '"') (h2 : c ≠ '\\')
    (h3 : ¬c.toNat < 32) :
    parseStrBody (c :: X) = (parseStrBody X).map (fun p => (c :: p.1, p.2)) := by
  rw [parseStrBody.eq_def]
  simp [h1, h2, h3]

theorem parseStrBody_escList (l rest : List Char) :
    parseStrBody (escList l ++ '"' :: rest) = some (l, rest) := by
  induction l with
  | nil => simp [escList, psb_quote]
  | cons c t ih =>
    rw [escList, List.append_assoc]
    by_cases h1 : c = '"'
    · subst h1
      simp [escChar, psb_esc_quote, ih]
    · by_cases h2 : c = '\\'
      · subst h2
        simp [escChar, psb_esc_bslash, ih]
      · by_cases h3 : c = Char.ofNat 8
        · subst h3
          simp [escChar, psb_esc_b, ih]
        · by_cases h4 : c = Char.ofNat 9
          · subst h4
            simp [escChar, psb_esc_t, ih]
          · by_cases h5 : c = Char.ofNat 10
            · subst h5
              simp [escChar, psb_esc_n, ih]
            · by_cases h6 : c = Char.ofNat 12
              · subst h6
                simp [escChar, psb_esc_f, ih]
              · by_cases h7 : c = Char.ofNat 13
                · subst h7
                  simp [escChar, psb_esc_r, ih]
                · by_cases hctl : c.toNat < 32
                  · have h16 := hexVal_hexDigitChar (c.toNat / 16) (by omega)
                    have h16b := hexVal_hexDigitChar (c.toNat % 16) (by omega)
                    have hn : 16 * (c.toNat / 16) + c.toNat % 16 = c.toNat := by omega
                    rw [show escChar c =
                        ['\\', 'u', '0', '0', hexDigitChar (c.toNat / 16),
                          hexDigitChar (c.toNat % 16)] from by
                      simp [escChar, h1, h2, h3, h4, h5, h6, h7, hctl]]
                    simp only [List.cons_append, List.nil_append]
                    rw [psb_esc_u _ _ _ _ _ h16 h16b (by omega) (by omega), ih]
                    simp [hn, Char.ofNat_toNat]
                  · rw [show escChar c = [c] from by
                      simp [escChar, h1, h2, h3, h4, h5, h6, h7, hctl]]
                    simp only [List.cons_append, List.nil_append]
                    rw [psb_raw c _ h1 h2 hctl, ih]
                    rfl

theorem skipWs_cons (c : Char) (cs : List Char) (h : isJsonWs c = false) :
    skipWs (c :: cs) = c :: cs := by
  simp [skipWs, h]

theorem skipWs_quote (X : List Char) : skipWs ('"' :: X) = '"' :: X :=
  skipWs_cons _ _ (by decide)

theorem parseVal_str (f : ℕ) (s : String) (X : List Char) :
    parseVal (f + 1) (quoteStr s ++ X) = some (.str s, X) := by
  rw [show quoteStr s ++ X = '"' :: (escList s.data ++ '"' :: X) by
    simp [quoteStr]]
  rw [parseVal.eq_def]
  simp [skipWs_quote, parseStrBody_escList]

theorem printNum_shape (q : ℚ) :
    ∃ c t, printNumL q = c :: t ∧ (c = '-' ∨ ∃ d, d < 10 ∧ c = digitChar d) := by
  rw [printNumL]
  set k := decExp q.den with hk
  set m := q.num.natAbs * (10 ^ k / q.den) with hmdef
  set ds := padDigits k (natToDigits m) with hdsdef
  have hdsdig : ∀ c ∈ ds, ∃ d, d < 10 ∧ c = digitChar d :=
    padDigits_all_digits _ _ (natToDigits_all_digits m)
  have hlen : ds.length = max (k + 1) (natToDigits m).length := padDigits_length _ _
  set int := ds.take (ds.length - k) with hintdef
  have hil : int.length = ds.length - k := by
    rw [hintdef, List.length_take]; omega
  have hine : int ≠ [] := by
    intro h
    have := congrArg List.length h
    rw [hil] at this
    simp at this
    omega
  obtain ⟨c0, int', hint⟩ := List.exists_cons_of_ne_nil hine
  obtain ⟨d0, hd0, hc0⟩ : ∃ d, d < 10 ∧ c0 = digitChar d := by
    apply hdsdig c0
    have : c0 ∈ int := by rw [hint]; simp
    exact List.mem_of_mem_take this
  by_cases hneg : q < 0
  · refine ⟨'-', int ++ (if k = 0 then [] else '.' :: ds.drop (ds.length - k)), ?_,
      Or.inl rfl⟩
    simp [hneg]
  · refine ⟨c0, int' ++ (if k = 0 then [] else '.' :: ds.drop (ds.length - k)), ?_, ?_⟩
    · simp [hneg, hint]
    · exact Or.inr ⟨d0, hd0, hc0⟩

theorem parseVal_num (f : ℕ) (q : ℚ) (X : List Char) (hq : DecFinite q)
    (hX : numStop X = true) :
    parseVal (f + 1) (printNumL q ++ X) = some (.num q, X) := by
  obtain ⟨c, t, hshape, hc⟩ := printNum_shape q
  have hconds : isJsonWs c = false ∧ c ≠ '\x7b' ∧ c ≠ '[' ∧ c ≠ '"' ∧
      c ≠ 't' ∧ c ≠ 'f' ∧ c ≠ 'n' := by
    rcases hc with rfl | ⟨d, hd, rfl⟩
    · exact ⟨by decide, by decide, by decide, by decide, by decide, by decide, by decide⟩
    · interval_cases d <;>
        exact ⟨by decide, by decide, by decide, by decide, by decide, by decide, by decide⟩
  obtain ⟨hws, hbr, hbk, hqw, ht1, hf1, hn1⟩ := hconds
  rw [hshape, List.cons_append, parseVal.eq_def]
  simp [skipWs_cons c (t ++ X) hws, hbr, hbk, hqw, ht1, hf1, hn1]
  rw [← List.cons_append, ← hshape, parseNum_printNum q hq X hX]

theorem printJsonL_num (q : ℚ) : printJsonL (Json.num q) = printNumL q := by
  rw [printJsonL.eq_def]

theorem printJsonL_str (s : String) : printJsonL (Json.str s) = quoteStr s := by
  rw [printJsonL.eq_def]

theorem printJsonL_arr (xs : List Json) :
    printJsonL (Json.arr xs) = '[' :: (printElemsL xs ++ [']']) := by
  rw [printJsonL.eq_def]

theorem printJsonL_obj (kvs : List (String × Json)) :
    printJsonL (Json.obj kvs) = '\x7b' :: (printMembersL kvs ++ ['\x7d']) := by
  rw [printJsonL.eq_def]

theorem printElemsL_single (x : Json) : printElemsL [x] = printJsonL x := by
  rw [printElemsL.eq_def]

theorem printElemsL_cons (x y : Json) (t : List Json) :
    printElemsL (x :: y :: t) = printJsonL x ++ ',' :: printElemsL (y :: t) := by
  rw [printElemsL.eq_def]

theorem printMembersL_single (k : String) (v : Json) :
    printMembersL [(k, v)] = quoteStr k ++ ':' :: printJsonL v := by
  rw [printMembersL.eq_def]

theorem printMembersL_cons (k : String) (v : Json) (k2 : String) (v2 : Json)
    (t : List (String × Json)) :
    printMembersL ((k, v) :: (k2, v2) :: t) =
      quoteStr k ++ ':' :: printJsonL v ++ ',' :: printMembersL ((k2, v2) :: t) := by
  rw [printMembersL.eq_def]

theorem parseVal_succ (f : ℕ) (cs : List Char) :
    parseVal (f + 1) cs =
      match skipWs cs with
      | [] => none
      | c :: cs1 =>
        if c = '\x7b' then
          match skipWs cs1 with
          | '\x7d' :: r => some (.obj [], r)
          | r => (parseMembers f r).map (fun p => (.obj p.1, p.2))
        else if c = '[' then
          match skipWs cs1 with
          | ']' :: r => some (.arr [], r)
          | r => (parseElems f r).map (fun p => (.arr p.1, p.2))
        else if c = '"' then (parseStrBody cs1).map (fun p => (.str (String.mk p.1), p.2))
        else if c = 't' then
          match cs1 with
          | 'r' :: 'u' :: 'e' :: r => some (.bool true, r)
          | _ => none
        else if c = 'f' then
          match cs1 with
          | 'a' :: 'l' :: 's' :: 'e' :: r => some (.bool false, r)
          | _ => none
        else if c = 'n' then
          match cs1 with
          | 'u' :: 'l' :: 'l' :: r => some (.null, r)
          | _ => none
        else (parseNum (c :: cs1)).map (fun p => (.num p.1, p.2)) := by
  rw [parseVal.eq_def]

theorem parseElems_succ (f : ℕ) (cs : List Char) :
    parseElems (f + 1) cs =
      match parseVal f cs with
      | none => none
      | some (v, r) =>
        match skipWs r with
        | ',' :: r2 => (parseElems f r2).map (fun p => (v :: p.1, p.2))
        | ']' :: r2 => some ([v], r2)
        | _ => none := by
  rw [parseElems.eq_def]

theorem parseMembers_succ (f : ℕ) (cs : List Char) :
    parseMembers (f + 1) cs =
      match cs with
      | '"' :: cs1 =>
        match parseStrBody cs1 with
        | none => none
        | some (k, r) =>
          match skipWs r with
          | ':' :: r2 =>
            match parseVal f r2 with
            | none => none
            | some (v, r3) =>
              match skipWs r3 with
              | ',' :: r4 =>
                (parseMembers f (skipWs r4)).map (fun p => ((String.mk k, v) :: p.1, p.2))
              | '\x7d' :: r4 => some ([(String.mk k, v)], r4)
              | _ => none
          | _ => none
      | _ => none := by
  rw [parseMembers.eq_def]

theorem parseElems_nums : ∀ (qs : List ℚ) (f : ℕ) (X : List Char), qs ≠ [] →
    qs.length < f → (∀ q ∈ qs, DecFinite q) →
    parseElems f (printElemsL (qs.map Json.num) ++ ']' :: X) =
      some (qs.map Json.num, X) := by
  intro qs
  induction qs with
  | nil => exact fun f X h _ _ => absurd rfl h
  | cons q t ih =>
    intro f X hne hf hfin
    obtain ⟨f', rfl⟩ : ∃ f', f = f' + 1 := ⟨f - 1, by omega⟩
    obtain ⟨g, rfl⟩ : ∃ g, f' = g + 1 := ⟨f' - 1, by simp at hf; omega⟩
    cases t with
    | nil =>
      rw [show ([q].map Json.num) = [Json.num q] from rfl, printElemsL_single,
        printJsonL_num, parseElems_succ]
      rw [parseVal_num g q (']' :: X) (hfin q (by simp)) rfl]
      simp [skipWs_cons ']' X (by decide)]
    | cons q2 t2 =>
      rw [show ((q :: q2 :: t2).map Json.num) = Json.num q :: Json.num q2 :: t2.map Json.num
          from rfl,
        printElemsL_cons, printJsonL_num, parseElems_succ]
      rw [List.append_assoc, List.cons_append]
      rw [parseVal_num g q (',' :: (printElemsL (Json.num q2 :: t2.map Json.num) ++ ']' :: X))
        (hfin q (by simp)) rfl]
      rw [show (Json.num q2 :: t2.map Json.num) = ((q2 :: t2).map Json.num) from rfl]
      have hrec := ih (g + 1) X (by simp)
        (by simp only [List.length_cons] at hf ⊢; omega)
        (fun x hx => hfin x (by simp [hx]))
      simp only [List.map_cons] at hrec
      simp [skipWs_cons ',' _ (by decide), hrec]

theorem printElemsL_nil : printElemsL [] = [] := by
  rw [printElemsL.eq_def]

theorem stringMk_data (s : String) : String.mk s.data = s := rfl

theorem parseVal_arr_nums (f : ℕ) (qs : List ℚ) (X : List Char)
    (hf : qs.length < f) (hfin : ∀ q ∈ qs, DecFinite q) :
    parseVal (f + 1) (printJsonL (Json.arr (qs.map Json.num)) ++ X) =
      some (Json.arr (qs.map Json.num), X) := by
  rw [printJsonL_arr, List.cons_append, List.append_assoc,
    show [']'] ++ X = ']' :: X from rfl, parseVal_succ]
  cases qs with
  | nil =>
    simp [List.map_nil, printElemsL_nil, skipWs_cons '[' _ (by decide),
      skipWs_cons ']' X (by decide)]
  | cons q t =>
    obtain ⟨tx, htx⟩ : ∃ tx, printElemsL ((q :: t).map Json.num) = printNumL q ++ tx := by
      cases t with
      | nil => exact ⟨[], by simp [printElemsL_single, printJsonL_num]⟩
      | cons m ms =>
        exact ⟨',' :: printElemsL ((m :: ms).map Json.num),
          by rw [List.map_cons, List.map_cons, printElemsL_cons, printJsonL_num]⟩
    obtain ⟨c, tn, hshape, hc⟩ := printNum_shape q
    have hconds : isJsonWs c = false ∧ c ≠ ']' := by
      rcases hc with rfl | ⟨d, hd, rfl⟩
      · exact ⟨by decide, by decide⟩
      · interval_cases d <;> exact ⟨by decide, by decide⟩
    have hform : printElemsL ((q :: t).map Json.num) ++ ']' :: X =
        c :: (tn ++ (tx ++ ']' :: X)) := by
      rw [htx, hshape]
      simp
    simp only [List.map_cons] at hform ⊢
    rw [hform, skipWs_cons '[' _ (by decide)]
    simp only [skipWs_cons c _ hconds.1]
    simp [hconds.2]
    rw [← hform]
    have hen := parseElems_nums (q :: t) f X (by simp) hf hfin
    simp only [List.map_cons] at hen
    simp [hen]

theorem parseMembers_last (f : ℕ) (key : String) (v : Json) (vchars X : List Char)
    (hv : parseVal f (vchars ++ '\x7d' :: X) = some (v, '\x7d' :: X)) :
    parseMembers (f + 1) (quoteStr key ++ ':' :: (vchars ++ '\x7d' :: X)) =
      some ([(key, v)], X) := by
  rw [show quoteStr key ++ ':' :: (vchars ++ '\x7d' :: X) =
      '"' :: (escList key.data ++ '"' :: (':' :: (vchars ++ '\x7d' :: X))) by
    simp [quoteStr]]
  rw [parseMembers_succ]
  simp [parseStrBody_escList, skipWs_cons ':' _ (by decide), hv,
    skipWs_cons '\x7d' X (by decide), stringMk_data]

theorem parseMembers_more (f : ℕ) (key : String) (v : Json) (vchars tail X : List Char)
    (ms : List (String × Json))
    (hv : parseVal f (vchars ++ ',' :: tail) = some (v, ',' :: tail))
    (htail : skipWs tail = tail)
    (hm : parseMembers f tail = some (ms, X)) :
    parseMembers (f + 1) (quoteStr key ++ ':' :: (vchars ++ ',' :: tail)) =
      some ((key, v) :: ms, X) := by
  rw [show quoteStr key ++ ':' :: (vchars ++ ',' :: tail) =
      '"' :: (escList key.data ++ '"' :: (':' :: (vchars ++ ',' :: tail))) by
    simp [quoteStr]]
  rw [parseMembers_succ]
  simp [parseStrBody_escList, skipWs_cons ':' _ (by decide), hv,
    skipWs_cons ',' tail (by decide), htail, hm, stringMk_data]

theorem printMembers_head (k : String) (v : Json) (rest : List (String × Json))
    (Y : List Char) : ∃ t, printMembersL ((k, v) :: rest) ++ Y = '"' :: t := by
  cases rest with
  | nil =>
    refine ⟨escList k.data ++ '"' :: (':' :: printJsonL v) ++ Y, ?_⟩
    rw [printMembersL_single]
    simp [quoteStr]
  | cons m2 t2 =>
    obtain ⟨k2, v2⟩ := m2
    refine ⟨escList k.data ++ '"' :: (':' :: printJsonL v ++ ',' ::
      printMembersL ((k2, v2) :: t2)) ++ Y, ?_⟩
    rw [printMembersL_cons]
    simp [quoteStr]

theorem skipWs_members (k : String) (v : Json) (rest : List (String × Json))
    (Y : List Char) :
    skipWs (printMembersL ((k, v) :: rest) ++ Y) = printMembersL ((k, v) :: rest) ++ Y := by
  obtain ⟨t, ht⟩ := printMembers_head k v rest Y
  rw [ht]
  exact skipWs_cons _ _ (by decide)

theorem recordMembers_eq (r : EmbeddingRecord) :
    genRecordMembers (recordToGen r) =
      [("id", Json.str r.id), ("input", Json.str r.input),
        ("embedding", Json.arr (r.embedding.map Json.num)),
        ("formatted", Json.str r.formatted), ("model", Json.str r.model),
        ("prompt_tokens", Json.num r.prompt_tokens),
        ("total_tokens", Json.num r.total_tokens)] := rfl

theorem parseVal_record (r : EmbeddingRecord) (f : ℕ) (X : List Char)
    (hf : r.embedding.length + 8 ≤ f)
    (h1 : DecFinite r.prompt_tokens) (h2 : DecFinite r.total_tokens)
    (h3 : ∀ q ∈ r.embedding, DecFinite q) :
    parseVal (f + 1) (printJsonL (recordToJson r) ++ X) =
      some (recordToJson r, X) := by
  obtain ⟨b0, rfl⟩ : ∃ b0, f = b0 + 8 := ⟨f - 8, by omega⟩
  have hb : r.embedding.length ≤ b0 := by omega
  -- member 7: total_tokens, the last member
  have hm7 : parseMembers (b0 + 2)
      (printMembersL [("total_tokens", Json.num r.total_tokens)] ++ '\x7d' :: X) =
      some ([("total_tokens", Json.num r.total_tokens)], X) := by
    rw [printMembersL_single, printJsonL_num]
    simp only [List.append_assoc, List.cons_append]
    exact parseMembers_last (b0 + 1) _ _ _ _ (parseVal_num b0 _ _ h2 rfl)
  -- member 6: prompt_tokens
  have hm6 : parseMembers (b0 + 3)
      (printMembersL [("prompt_tokens", Json.num r.prompt_tokens),
        ("total_tokens", Json.num r.total_tokens)] ++ '\x7d' :: X) =
      some ([("prompt_tokens", Json.num r.prompt_tokens),
        ("total_tokens", Json.num r.total_tokens)], X) := by
    rw [printMembersL_cons, printJsonL_num]
    simp only [List.append_assoc, List.cons_append]
    exact parseMembers_more (b0 + 2) _ _ _ _ _ _
      (parseVal_num (b0 + 1) _ _ h1 rfl) (skipWs_members _ _ _ _) hm7
  -- member 5: model
  have hm5 : parseMembers (b0 + 4)
      (printMembersL [("model", Json.str r.model),
        ("prompt_tokens", Json.num r.prompt_tokens),
        ("total_tokens", Json.num r.total_tokens)] ++ '\x7d' :: X) =
      some ([("model", Json.str r.model),
        ("prompt_tokens", Json.num r.prompt_tokens),
        ("total_tokens", Json.num r.total_tokens)], X) := by
    rw [printMembersL_cons, printJsonL_str]
    simp only [List.append_assoc, List.cons_append]
    exact parseMembers_more (b0 + 3) _ _ _ _ _ _
      (parseVal_str (b0 + 2) r.model _) (skipWs_members _ _ _ _) hm6
  -- member 4: formatted
  have hm4 : parseMembers (b0 + 5)
      (printMembersL [("formatted", Json.str r.formatted), ("model", Json.str r.model),
        ("prompt_tokens", Json.num r.prompt_tokens),
        ("total_tokens", Json.num r.total_tokens)] ++ '\x7d' :: X) =
      some ([("formatted", Json.str r.formatted), ("model", Json.str r.model),
        ("prompt_tokens", Json.num r.prompt_tokens),
        ("total_tokens", Json.num r.total_tokens)], X) := by
    rw [printMembersL_cons, printJsonL_str]
    simp only [List.append_assoc, List.cons_append]
    exact parseMembers_more (b0 + 4) _ _ _ _ _ _
      (parseVal_str (b0 + 3) r.formatted _) (skipWs_members _ _ _ _) hm5
  -- member 3: embedding
  have hm3 : parseMembers (b0 + 6)
      (printMembersL [("embedding", Json.arr (r.embedding.map Json.num)),
        ("formatted", Json.str r.formatted), ("model", Json.str r.model),
        ("prompt_tokens", Json.num r.prompt_tokens),
        ("total_tokens", Json.num r.total_tokens)] ++ '\x7d' :: X) =
      some ([("embedding", Json.arr (r.embedding.map Json.num)),
        ("formatted", Json.str r.formatted), ("model", Json.str r.model),
        ("prompt_tokens", Json.num r.prompt_tokens),
        ("total_tokens", Json.num r.total_tokens)], X) := by
    rw [printMembersL_cons]
    simp only [List.append_assoc, List.cons_append]
    exact parseMembers_more (b0 + 5) _ _ _ _ _ _
      (parseVal_arr_nums (b0 + 4) r.embedding _ (by omega) h3)
      (skipWs_members _ _ _ _) hm4
  -- member 2: input
  have hm2 : parseMembers (b0 + 7)
      (printMembersL [("input", Json.str r.input),
        ("embedding", Json.arr (r.embedding.map Json.num)),
        ("formatted", Json.str r.formatted), ("model", Json.str r.model),
        ("prompt_tokens", Json.num r.prompt_tokens),
        ("total_tokens", Json.num r.total_tokens)] ++ '\x7d' :: X) =
      some ([("input", Json.str r.input),
        ("embedding", Json.arr (r.embedding.map Json.num)),
        ("formatted", Json.str r.formatted), ("model", Json.str r.model),
        ("prompt_tokens", Json.num r.prompt_tokens),
        ("total_tokens", Json.num r.total_tokens)], X) := by
    rw [printMembersL_cons, printJsonL_str]
    simp only [List.append_assoc, List.cons_append]
    exact parseMembers_more (b0 + 6) _ _ _ _ _ _
      (parseVal_str (b0 + 5) r.input _) (skipWs_members _ _ _ _) hm3
  -- member 1: id
  have hm1 : parseMembers (b0 + 8)
      (printMembersL (genRecordMembers (recordToGen r)) ++ '\x7d' :: X) =
      some (genRecordMembers (recordToGen r), X) := by
    rw [recordMembers_eq, printMembersL_cons, printJsonL_str]
    simp only [List.append_assoc, List.cons_append]
    exact parseMembers_more (b0 + 7) _ _ _ _ _ _
      (parseVal_str (b0 + 6) r.id _) (skipWs_members _ _ _ _) hm2
  -- the object itself
  rw [show recordToJson r = Json.obj (genRecordMembers (recordToGen r)) from rfl,
    printJsonL_obj, parseVal_succ]
  rw [List.cons_append, skipWs_cons '\x7b' _ (by decide)]
  simp only [List.append_assoc, List.singleton_append]
  obtain ⟨tq, htq⟩ := printMembers_head "id" (Json.str r.id)
    [("input", Json.str r.input),
      ("embedding", Json.arr (r.embedding.map Json.num)),
      ("formatted", Json.str r.formatted), ("model", Json.str r.model),
      ("prompt_tokens", Json.num r.prompt_tokens),
      ("total_tokens", Json.num r.total_tokens)] ('\x7d' :: X)
  rw [show printMembersL (genRecordMembers (recordToGen r)) ++ '\x7d' :: X =
      '"' :: tq from recordMembers_eq r ▸ htq]
  rw [skipWs_cons '"' tq (by decide)]
  simp
  rw [← htq, recordMembers_eq r]
  rw [recordMembers_eq r] at hm1
  exact hm1

theorem printElems_nums_len (qs : List ℚ) :
    qs.length ≤ (printElemsL (qs.map Json.num)).length := by
  induction qs with
  | nil => simp [printElemsL_nil]
  | cons q t ih =>
    cases t with
    | nil =>
      obtain ⟨c, tn, hs, -⟩ := printNum_shape q
      simp [printElemsL_single, printJsonL_num, hs]
    | cons q2 t2 =>
      obtain ⟨c, tn, hs, -⟩ := printNum_shape q
      rw [List.map_cons, List.map_cons, printElemsL_cons, printJsonL_num, hs]
      simp only [List.length_cons, List.length_append, List.map_cons] at ih ⊢
      omega

theorem record_print_length (r : EmbeddingRecord) :
    r.embedding.length + 8 ≤ (printJsonL (recordToJson r)).length := by
  have he := printElems_nums_len r.embedding
  rw [show recordToJson r = Json.obj (genRecordMembers (recordToGen r)) from rfl,
    printJsonL_obj, recordMembers_eq, printMembersL_cons, printMembersL_cons,
    printMembersL_cons, printMembersL_cons, printMembersL_cons, printMembersL_cons,
    printMembersL_single, printJsonL_arr]
  simp only [List.length_cons, List.length_append]
  omega

theorem parseJson_serializeRecord (r : EmbeddingRecord)
    (h1 : DecFinite r.prompt_tokens) (h2 : DecFinite r.total_tokens)
    (h3 : ∀ q ∈ r.embedding, DecFinite q) :
    parseJson (serializeRecord r) = some (recordToJson r) := by
  have hval := parseVal_record r ((printJsonL (recordToJson r)).length) []
    (by have := record_print_length r; omega) h1 h2 h3
  rw [List.append_nil] at hval
  unfold parseJson serializeRecord stringifyGenRecord
  rw [show (String.mk (printJsonL (Json.obj (genRecordMembers (recordToGen r))))).data =
      printJsonL (recordToJson r) from rfl]
  rw [show (String.mk (printJsonL (Json.obj (genRecordMembers (recordToGen r))))).length =
      (printJsonL (recordToJson r)).length from rfl]
  rw [hval]
  simp [skipWs]

/-- C2: deserializing the transport string of any valid record - applying
FormatEmbedding's parse to the string GenerateEmbedding's stringify
produced - recovers the record exactly, field for field, including the
embedding vector's values and length.  The finiteness hypotheses are the
rational counterpart of "finite JS number": every finite double is a
finite decimal. -/
theorem serialize_roundtrip (r : EmbeddingRecord)
    (h1 : DecFinite r.prompt_tokens) (h2 : DecFinite r.total_tokens)
    (h3 : ∀ q ∈ r.embedding, DecFinite q) :
    FormatEmbedding (some (serializeRecord r)) = recordToJson r := by
  have hne : serializeRecord r ≠ "" := by
    intro h
    have hd := congrArg String.data h
    rw [show (serializeRecord r).data = printJsonL (recordToJson r) from rfl,
      show recordToJson r = Json.obj (genRecordMembers (recordToGen r)) from rfl,
      printJsonL_obj] at hd
    simp at hd
  simp [FormatEmbedding, hne, parseJson_serializeRecord r h1 h2 h3]

/-- Witness for C2 at the spec's example record, whose embedding vector is
`[0.1, 0.2, 0.3]`. -/
theorem serialize_roundtrip_witness :
    FormatEmbedding (some (serializeRecord ⟨"0", "hello world",
        [mkRat 1 10, mkRat 2 10, mkRat 3 10],
        "Embedding Object", "text-embedding-3-small", 2, 2⟩)) =
      recordToJson ⟨"0", "hello world", [mkRat 1 10, mkRat 2 10, mkRat 3 10],
        "Embedding Object", "text-embedding-3-small", 2, 2⟩ :=
  serialize_roundtrip ⟨"0", "hello world", [mkRat 1 10, mkRat 2 10, mkRat 3 10],
      "Embedding Object", "text-embedding-3-small", 2, 2⟩
    (by decide) (by decide) (by decide)

end CodaEmbeddings
